import Mathlib

/-!
# Verification of the book-author microservice pair

A shallow embedding of the two FastAPI services of this repository:

* `src/books_service/app/main.py`  — the Book Store (books, book_authors join
  table, replace-authors endpoint, by-author query, book creation);
* `src/authors_service/app/main.py` — the Author Store (author lookup and the
  assign-books orchestration that reads and rewrites a book's author list
  through the Book Store's HTTP API).

The shared relational schema is the one declared in
`src/authors_service/app/models.py`: tables `authors`, `books` and the join
table `book_authors` of (book_id, author_id) rows.

Database sessions commit exactly where the Python code calls `db.commit()`;
an `HTTPException` raised before a commit leaves the committed state as it
was, which the embedding reflects by returning the store unchanged on those
paths.  HTTP exchanges between the services are modelled by explicit outcome
types (`RemoteResp`, `HttpResult`) and JSON bodies by a small `Json` type.
-/

namespace BookAuthorMS

/-- A row of the `authors` table (`src/authors_service/app/models.py`). -/
structure Author where
  id : Int
  name : String
  bio : Option String
deriving Repr, DecidableEq

/-- A row of the `books` table (`src/authors_service/app/models.py`). -/
structure Book where
  id : Int
  title : String
  description : Option String
deriving Repr, DecidableEq

/-- The shared database: `authors`, `books` and the many-to-many join table
`book_authors` whose rows are (book_id, author_id) pairs. -/
structure Store where
  authors : List Author
  books : List Book
  bookAuthors : List (Int × Int)
deriving Repr, DecidableEq

/-- A parsed JSON value, as `json.loads` produces it on either side of the
HTTP exchanges (the services only ever emit integers, so numbers are `Int`). -/
inductive Json where
  | null
  | num (n : Int)
  | str (s : String)
  | bool (b : Bool)
  | arr (elems : List Json)
  | obj (fields : List (String × Json))
deriving Repr

/-! ## Book Store (`src/books_service/app/main.py`) -/

/-- Outcome of the HTTP GET that `_assert_author_exists` performs against the
Author Store (`urllib.request.urlopen` on `/authors/{author_id}`):
the call returns with some status, raises `urllib.error.HTTPError`, or raises
some other exception (connection refused, timeout, ...). -/
inductive RemoteResp where
  | ok (status : Int)
  | httpError (code : Int)
  | netError
deriving Repr, DecidableEq

/-- The `HTTPException`s the Book Store's handlers raise, with the data their
detail strings carry. -/
inductive BooksErr where
  /-- 404 "Book not found" -/
  | bookNotFound
  /-- 422 "author_ids must be a list" (request-body validation) -/
  | payloadNotAList
  /-- 404 "Author {aid} not found" (from `_assert_author_exists`) -/
  | authorNotFound (aid : Int)
  /-- 502 "Authors service error ({code})" (from `_assert_author_exists`) -/
  | authorsServiceError (code : Int)
  /-- 503 "Authors service unavailable: ..." (from `_assert_author_exists`) -/
  | authorsServiceUnavailable
  /-- 404 "Authors not found in DB: {missing}" (replace endpoint) -/
  | authorsNotFoundInDb (missing : List Int)
  /-- 404 "Author {aid} not found in DB" (create endpoint) -/
  | authorNotFoundInDb (aid : Int)
deriving Repr, DecidableEq

/-- The HTTP status code of each Book Store error. -/
def BooksErr.status : BooksErr → Int
  | .bookNotFound => 404
  | .payloadNotAList => 422
  | .authorNotFound _ => 404
  | .authorsServiceError _ => 502
  | .authorsServiceUnavailable => 503
  | .authorsNotFoundInDb _ => 404
  | .authorNotFoundInDb _ => 404

/-- `_assert_author_exists` (books_service main.py, lines 58-76): given the
outcome of the GET to the Author Store, pass, or raise 404 (author missing /
non-200 status), 502 (other HTTP error from the peer) or 503 (unreachable). -/
def assert_author_exists (aid : Int) (resp : RemoteResp) : Except BooksErr Unit :=
  match resp with
  | .ok status => if status ≠ 200 then .error (.authorNotFound aid) else .ok ()
  | .httpError code =>
      if code = 404 then .error (.authorNotFound aid)
      else .error (.authorsServiceError code)
  | .netError => .error .authorsServiceUnavailable

/-- The `for aid in author_ids: _assert_author_exists(aid)` loop: validate the
ids in order against the Author Store (`check` gives each GET's outcome);
the first failure aborts. -/
def validate_author_ids (check : Int → RemoteResp) : List Int → Except BooksErr Unit
  | [] => .ok ()
  | aid :: rest =>
    match assert_author_exists aid (check aid) with
    | .error e => .error e
    | .ok () => validate_author_ids check rest

/-- Response body of `PUT /books/{book_id}/authors`:
`{"book_id": ..., "author_ids": [...]}`. -/
structure ReplaceResp where
  book_id : Int
  author_ids : List Int
deriving Repr, DecidableEq

/-- The author rows the replace endpoint re-fetches locally:
`select(Author).where(Author.id.in_(author_ids))` over the shared table. -/
def fetched_authors (st : Store) (author_ids : List Int) : List Author :=
  st.authors.filter (fun a => author_ids.contains a.id)

/-- `missing = [aid for aid in author_ids if aid not in found]` where `found`
is the id set of the re-fetched rows. -/
def missing_ids (st : Store) (author_ids : List Int) : List Int :=
  let found := (fetched_authors st author_ids).map (fun a => a.id)
  author_ids.filter (fun aid => ! found.contains aid)

/-- `set_book_authors` (books_service main.py, lines 180-216), the body of
`PUT /books/{book_id}/authors` after request-body validation: look up the
book (404 if absent), validate every id remotely, re-fetch the local rows,
404 listing the missing ids if the local table lacks some, otherwise replace
the book's join rows with exactly the fetched rows and commit.  The returned
store is the state as committed: every error path leaves it unchanged, since
the single `db.commit()` of the handler comes after all checks. -/
def set_book_authors (check : Int → RemoteResp) (st : Store) (book_id : Int)
    (author_ids : List Int) : Store × Except BooksErr ReplaceResp :=
  match st.books.find? (fun b => b.id == book_id) with
  | none => (st, .error .bookNotFound)
  | some _ =>
    match validate_author_ids check author_ids with
    | .error e => (st, .error e)
    | .ok () =>
      let authors := fetched_authors st author_ids
      if missing_ids st author_ids ≠ [] then
        (st, .error (.authorsNotFoundInDb (missing_ids st author_ids)))
      else
        ({ st with bookAuthors :=
             st.bookAuthors.filter (fun p => p.1 != book_id)
               ++ authors.map (fun a => (book_id, a.id)) },
         .ok ⟨book_id, authors.map (fun a => a.id)⟩)

/-- Pydantic binding of the request body `{"author_ids": [int]}` of
`SetBookAuthorsRequest` (books_service schemas.py): the body must be an
object whose `author_ids` field is an array of integers; anything else is
rejected by request validation with 422. -/
def parse_author_ids (body : Json) : Option (List Int) :=
  match body with
  | .obj fields =>
    match fields.find? (fun p => p.1 == "author_ids") with
    | some (_, .arr elems) =>
        elems.mapM (fun j => match j with | .num n => some n | _ => none)
    | _ => none
  | _ => none

/-- The full `PUT /books/{book_id}/authors` endpoint: request-body validation
(422 on a malformed body — this also covers the handler's own
`isinstance(author_ids, list)` re-check, unreachable after binding) followed
by `set_book_authors`. -/
def put_book_authors (check : Int → RemoteResp) (st : Store) (book_id : Int)
    (body : Json) : Store × Except BooksErr ReplaceResp :=
  match parse_author_ids body with
  | none => (st, .error .payloadNotAList)
  | some author_ids => set_book_authors check st book_id author_ids

/-- The id PostgreSQL's serial column hands the next inserted book row:
one more than the largest id in the table (1 on an empty table). -/
def nextBookId (st : Store) : Int :=
  (st.books.map (fun b => b.id)).foldr max 0 + 1

/-- The attach loop of `create_book`: for each id, in order, look the author
up in the shared table; 404 on the first miss, else collect the row ids. -/
def lookup_authors (st : Store) : List Int → Except BooksErr (List Int)
  | [] => .ok []
  | aid :: rest =>
    match st.authors.find? (fun a => a.id == aid) with
    | none => .error (.authorNotFoundInDb aid)
    | some a =>
      match lookup_authors st rest with
      | .error e => .error e
      | .ok ids => .ok (a.id :: ids)

/-- `create_book` (books_service main.py, lines 144-174): insert the book row
and COMMIT it at once; then, if author_ids is non-empty, validate each id
remotely, look each up locally, and only then commit the join rows.  A
validation failure therefore still leaves the already-committed book row in
the store, which is why the final store is returned on the error paths too. -/
def create_book (check : Int → RemoteResp) (st : Store) (title : String)
    (description : Option String) (author_ids : List Int) :
    Store × Except BooksErr Book :=
  let db_book : Book := ⟨nextBookId st, title, description⟩
  let st1 : Store := { st with books := st.books ++ [db_book] }
  if author_ids.isEmpty then (st1, .ok db_book)
  else
    match validate_author_ids check author_ids with
    | .error e => (st1, .error e)
    | .ok () =>
      match lookup_authors st1 author_ids with
      | .error e => (st1, .error e)
      | .ok ids =>
        ({ st1 with bookAuthors :=
             st1.bookAuthors ++ ids.map (fun aid => (db_book.id, aid)) },
         .ok db_book)

/-- One row of the `GET /books/by-author/{author_id}` response:
`select(Book.id, Book.title, Book.description)`. -/
structure BookSummary where
  id : Int
  title : String
  description : Option String
deriving Repr, DecidableEq

/-- Response body of `GET /books/by-author/{author_id}`. -/
structure ByAuthorResp where
  author_id : Int
  books : List BookSummary
deriving Repr, DecidableEq

/-- `get_books_by_author` (books_service main.py, lines 222-236): the pure
local join `books ⋈ book_authors` filtered on the author id, projected to
(id, title, description) and ordered by book id ascending (`ORDER BY
books.id`, modelled by an insertion sort on the projected rows).  The handler
raises nothing: every author id, known or not, gets a 200 response. -/
def get_books_by_author (st : Store) (author_id : Int) :
    Except BooksErr ByAuthorResp :=
  let rows := (st.books.filter (fun b => st.bookAuthors.contains (b.id, author_id))).map
      (fun b => BookSummary.mk b.id b.title b.description)
  .ok ⟨author_id, List.insertionSort (fun x y => x.id ≤ y.id) rows⟩

/-! ## Author Store (`src/authors_service/app/main.py`) -/

/-- Outcome of one HTTP exchange the Author Store has with the Book Store:
a successful response whose body parsed as JSON, an `urllib.error.HTTPError`
with a status code, or any other failure (connection error, timeout, or a
body `json.loads` rejects — all caught by the same `except Exception`). -/
inductive HttpResult where
  | success (body : Json)
  | httpError (code : Int)
  | failure
deriving Repr

/-- The Book Store as the Author Store sees it over HTTP:
`GET /books/{book_id}/authors` and `PUT /books/{book_id}/authors`
(the PUT body is `{"author_ids": ids}`). -/
structure BooksPeer where
  getAuthors : Int → HttpResult
  putAuthors : Int → List Json → HttpResult

/-- One outbound call `set_author_books` makes to the Book Store. -/
inductive PeerCall where
  | get (book_id : Int)
  | put (book_id : Int) (author_ids : List Json)
deriving Repr

/-- The `HTTPException`s `set_author_books` raises. -/
inductive AuthorsErr where
  /-- 404 "Author not found" -/
  | authorNotFound
  /-- the peer's own HTTP error status, propagated verbatim (`e.code`) -/
  | booksServiceError (code : Int)
  /-- 503 "Books service unavailable: ..." -/
  | booksServiceUnavailable
  /-- 502 "Unexpected response from books_service ... Expected a list of authors." -/
  | unexpectedResponseShape
deriving Repr, DecidableEq

/-- The HTTP status code of each Author Store error. -/
def AuthorsErr.status : AuthorsErr → Int
  | .authorNotFound => 404
  | .booksServiceError code => code
  | .booksServiceUnavailable => 503
  | .unexpectedResponseShape => 502

/-- Python's `a.get("id")` on a decoded JSON object: the value of the first
matching key, if any. -/
def jsonField (fields : List (String × Json)) (key : String) : Option Json :=
  (fields.find? (fun p => p.1 == key)).map (fun p => p.2)

/-- `[a.get("id") for a in current_authors if isinstance(a, dict) and "id" in a]`
(authors_service main.py, line 199): the `id` field of each element that is an
object carrying one; every other element is silently skipped. -/
def extract_current_ids : List Json → List Json
  | [] => []
  | .obj fields :: rest =>
    match jsonField fields "id" with
    | some v => v :: extract_current_ids rest
    | none => extract_current_ids rest
  | _ :: rest => extract_current_ids rest

/-- Python's `author_id == j` on a decoded JSON value (`author_id` an int):
true for the same integer, and for a boolean whose Python int value matches
(`True == 1`, `False == 0`); false against every other JSON shape. -/
def Json.eqInt (j : Json) (n : Int) : Bool :=
  match j with
  | .num m => m == n
  | .bool b => (if b then (1 : Int) else 0) == n
  | _ => false

/-- Lines 200-201: `if author_id not in current_ids: current_ids.append(author_id)` —
the id list the PUT body will carry. -/
def merged_ids (current : List Json) (author_id : Int) : List Json :=
  if current.any (fun j => j.eqInt author_id) then current
  else current ++ [.num author_id]

/-- `body.isArr`: the `isinstance(current_authors, list)` test of line 193. -/
def Json.isArr : Json → Bool
  | .arr _ => true
  | _ => false

/-- The per-book loop of `set_author_books` (authors_service main.py,
lines 176-223): for each book id, GET its current authors (propagating the
peer's HTTP error code, 503 on transport failure), fail 502 unless the body
is a list, merge `author_id` into the extracted id list, PUT the merged list
back, and collect the PUT responses.  Returns the trace of peer calls made
together with the handler's outcome. -/
def process_books (peer : BooksPeer) (author_id : Int) :
    List Int → List PeerCall × Except AuthorsErr (List Json)
  | [] => ([], .ok [])
  | book_id :: rest =>
    match peer.getAuthors book_id with
    | .httpError code => ([.get book_id], .error (.booksServiceError code))
    | .failure => ([.get book_id], .error .booksServiceUnavailable)
    | .success body =>
      match body with
      | .arr current_authors =>
        let ids := merged_ids (extract_current_ids current_authors) author_id
        match peer.putAuthors book_id ids with
        | .httpError code =>
            ([.get book_id, .put book_id ids], .error (.booksServiceError code))
        | .failure =>
            ([.get book_id, .put book_id ids], .error .booksServiceUnavailable)
        | .success resp =>
          let tail := process_books peer author_id rest
          (.get book_id :: .put book_id ids :: tail.1,
           match tail.2 with
           | .error e => .error e
           | .ok resps => .ok (resp :: resps))
      | _ => ([.get book_id], .error .unexpectedResponseShape)

/-- `set_author_books` (authors_service main.py, lines 144-225 and its
duplicate at 259-340), the body of `PUT /authors/{author_id}/books`: 404 if
the author is unknown locally; an immediate "No book_ids provided" result
when `book_ids` is empty (the trace of peer calls is then empty — no
downstream call happens); otherwise the per-book read-merge-write loop, whose
collected responses are wrapped into the success body. -/
def set_author_books (peer : BooksPeer) (st : Store) (author_id : Int)
    (book_ids : List Int) : List PeerCall × Except AuthorsErr Json :=
  match st.authors.find? (fun a => a.id == author_id) with
  | none => ([], .error .authorNotFound)
  | some _ =>
    if book_ids.isEmpty then
      ([], .ok (.obj [("author_id", .num author_id),
                      ("updated_books", .arr []),
                      ("message", .str "No book_ids provided")]))
    else
      let r := process_books peer author_id book_ids
      (r.1,
       match r.2 with
       | .error e => .error e
       | .ok updated =>
         .ok (.obj [("author_id", .num author_id),
                    ("book_ids", .arr (book_ids.map .num)),
                    ("updated_books", .arr updated)]))

/-! ## Bridges between the two services -/

/-- The author rows related to a book through the join table, in table order:
what the ORM relationship `book.authors` loads. -/
def book_author_rows (st : Store) (book_id : Int) : List Author :=
  st.authors.filter (fun a => st.bookAuthors.contains (book_id, a.id))

/-- The JSON record `GET /books/{book_id}/authors` serialises one author row
to (`AuthorForBook` in books_service schemas.py: id, name, bio). -/
def author_record (a : Author) : Json :=
  .obj [("id", .num a.id), ("name", .str a.name),
        ("bio", match a.bio with | some s => .str s | none => .null)]

/-- `get_book_authors` (books_service main.py, lines 125-138), the handler of
`GET /books/{book_id}/authors`: 404 if the book is unknown, else the book's
author records. -/
def get_book_authors (st : Store) (book_id : Int) : Except BooksErr (List Json) :=
  match st.books.find? (fun b => b.id == book_id) with
  | none => .error .bookNotFound
  | some _ => .ok ((book_author_rows st book_id).map author_record)

/-- A healthy Author Store whose table holds exactly the ids in `remote`, as
`_assert_author_exists`'s GET observes it: 200 for a known id, HTTP error 404
for an unknown one (`read_author`, authors_service main.py, lines 230-241). -/
def remoteOf (remote : List Int) : Int → RemoteResp :=
  fun aid => if remote.contains aid then .ok 200 else .httpError 404

/-- Is this JSON value a sequence of author records, i.e. an array each of
whose elements is an object carrying an `id` field?  (The spec's notion; the
code itself only ever tests `isinstance(..., list)`.) -/
def isAuthorRecordSeq : Json → Bool
  | .arr elems => elems.all (fun j => match j with
      | .obj fields => (jsonField fields "id").isSome
      | _ => false)
  | _ => false

/-! ## Concrete instances used to exercise the model -/

/-- A store with authors 5 and 77, one book 10, and 77 already the book's
author. -/
def sampleStore : Store :=
  ⟨[⟨5, "Ada", none⟩, ⟨77, "Grace", none⟩], [⟨10, "T", none⟩], [(10, 77)]⟩

/-- `sampleStore` after `ReplaceBookAuthors(10, [5])`. -/
def sampleStoreReplaced : Store :=
  ⟨[⟨5, "Ada", none⟩, ⟨77, "Grace", none⟩], [⟨10, "T", none⟩], [(10, 5)]⟩

/-- A store with author 5 only and one book 10 with no authors. -/
def smallStore : Store := ⟨[⟨5, "Ada", none⟩], [⟨10, "T", none⟩], []⟩

/-- The empty database. -/
def emptyStore : Store := ⟨[], [], []⟩

/-- The id list the spec says the assign loop must write for a book whose
current author ids are `L`: `L` itself when `A` already occurs, else `L` with
`A` appended at the end — existing ids neither deduplicated nor reordered. -/
def expected_put_ids (L : List Int) (A : Int) : List Json :=
  if A ∈ L then L.map Json.num else (L ++ [A]).map Json.num

/-- A healthy Book Store peer backed by `sampleStore`: its GET answers with
book 10's serialised author records; PUT bodies are acknowledged with an
arbitrary JSON body. -/
def samplePeer : BooksPeer :=
  ⟨fun b => if b == 10
      then .success (.arr ((book_author_rows sampleStore 10).map author_record))
      else .httpError 404,
   fun _ _ => .success .null⟩

/-- A peer whose GET answers 200 with a JSON string — not a list at all. -/
def oddPeer : BooksPeer :=
  ⟨fun _ => .success (.str "oops"), fun _ _ => .success .null⟩

/-- A peer whose GET answers 200 with a list whose element is a bare number —
a sequence, but not one of author records. -/
def nonRecordPeer : BooksPeer :=
  ⟨fun _ => .success (.arr [.num 42]), fun _ _ => .success .null⟩

/-! ## Helper lemmas -/

theorem int_contains_iff {l : List Int} {a : Int} : l.contains a = true ↔ a ∈ l :=
  List.elem_iff

theorem mem_fetched_map_id {st : Store} {S : List Int} {aid : Int} :
    aid ∈ (fetched_authors st S).map (fun a => a.id) ↔
      aid ∈ S ∧ ∃ a ∈ st.authors, a.id = aid := by
  simp only [fetched_authors, List.mem_map, List.mem_filter]
  constructor
  · rintro ⟨a, ⟨ha, hc⟩, rfl⟩
    exact ⟨int_contains_iff.mp hc, a, ha, rfl⟩
  · rintro ⟨hS, a, ha, rfl⟩
    exact ⟨a, ⟨ha, int_contains_iff.mpr hS⟩, rfl⟩

theorem missing_ids_eq_nil_iff {st : Store} {S : List Int} :
    missing_ids st S = [] ↔ ∀ aid ∈ S, ∃ a ∈ st.authors, a.id = aid := by
  simp only [missing_ids, List.filter_eq_nil_iff, Bool.not_eq_true', Bool.not_eq_false]
  constructor
  · intro h aid ha
    exact (mem_fetched_map_id.mp (int_contains_iff.mp (h aid ha))).2
  · intro h aid ha
    exact int_contains_iff.mpr (mem_fetched_map_id.mpr ⟨ha, h aid ha⟩)

theorem mem_missing_ids_iff {st : Store} {S : List Int} {aid : Int} :
    aid ∈ missing_ids st S ↔ aid ∈ S ∧ ∀ a ∈ st.authors, a.id ≠ aid := by
  simp only [missing_ids, List.mem_filter, Bool.not_eq_true', ← Bool.not_eq_true,
    int_contains_iff]
  constructor
  · rintro ⟨hS, hnc⟩
    refine ⟨hS, fun a ha heq => hnc ?_⟩
    exact mem_fetched_map_id.mpr ⟨hS, a, ha, heq⟩
  · rintro ⟨hS, hno⟩
    refine ⟨hS, fun hc => ?_⟩
    obtain ⟨-, a, ha, heq⟩ := mem_fetched_map_id.mp hc
    exact hno a ha heq

/-- The ids of the authors a book currently has, read off the join table. -/
def book_author_ids (st : Store) (book_id : Int) : List Int :=
  (st.bookAuthors.filter (fun p => p.1 == book_id)).map (fun p => p.2)

theorem set_book_authors_eq_of {check : Int → RemoteResp} {st : Store} {B : Int}
    {S : List Int} {b : Book}
    (hfind : st.books.find? (fun x => x.id == B) = some b)
    (hval : validate_author_ids check S = .ok ())
    (hm : missing_ids st S = []) :
    set_book_authors check st B S =
      ({ st with bookAuthors := st.bookAuthors.filter (fun p => p.1 != B)
           ++ (fetched_authors st S).map (fun a => (B, a.id)) },
       .ok ⟨B, (fetched_authors st S).map (fun a => a.id)⟩) := by
  simp [set_book_authors, hfind, hval, hm]

theorem replace_ok_inversion {check : Int → RemoteResp} {st : Store} {B : Int}
    {S : List Int} {st' : Store} {resp : ReplaceResp}
    (h : set_book_authors check st B S = (st', .ok resp)) :
    ∃ b, st.books.find? (fun x => x.id == B) = some b ∧
      validate_author_ids check S = .ok () ∧
      missing_ids st S = [] ∧
      st' = { st with bookAuthors := st.bookAuthors.filter (fun p => p.1 != B)
           ++ (fetched_authors st S).map (fun a => (B, a.id)) } ∧
      resp = ⟨B, (fetched_authors st S).map (fun a => a.id)⟩ := by
  cases hfind : st.books.find? (fun x => x.id == B) with
  | none => simp [set_book_authors, hfind] at h
  | some b =>
    cases hval : validate_author_ids check S with
    | error e => simp [set_book_authors, hfind, hval] at h
    | ok u =>
      cases u
      by_cases hm : missing_ids st S = []
      · rw [set_book_authors_eq_of hfind hval hm] at h
        injection h with h1 h2
        injection h2 with h3
        exact ⟨b, rfl, rfl, hm, h1.symm, h3.symm⟩
      · simp [set_book_authors, hfind, hval, hm] at h

theorem mem_book_author_ids {st : Store} {B aid : Int} :
    aid ∈ book_author_ids st B ↔ (B, aid) ∈ st.bookAuthors := by
  simp only [book_author_ids, List.mem_map, List.mem_filter]
  constructor
  · rintro ⟨⟨x, y⟩, ⟨hmem, hx⟩, rfl⟩
    rwa [show x = B from by simpa using hx] at hmem
  · intro h
    exact ⟨(B, aid), ⟨h, by simp⟩, rfl⟩

theorem book_author_ids_after_replace (st : Store) (B : Int) (S : List Int) :
    book_author_ids { st with bookAuthors := st.bookAuthors.filter (fun p => p.1 != B)
        ++ (fetched_authors st S).map (fun a => (B, a.id)) } B
      = (fetched_authors st S).map (fun a => a.id) := by
  simp only [book_author_ids, List.filter_append, List.filter_filter, List.filter_map,
    List.map_append, List.map_map]
  have h1 : (st.bookAuthors.filter fun p => (p.1 == B) && (p.1 != B)) = [] := by
    apply List.filter_eq_nil_iff.mpr
    intro p _
    simp [bne]
  have h2 : (fetched_authors st S).filter
      ((fun p => p.1 == B) ∘ (fun a => ((B : Int), a.id))) = fetched_authors st S := by
    apply List.filter_eq_self.mpr
    intro a _
    simp [Function.comp]
  rw [h1, h2]
  simp [Function.comp]

theorem fetched_map_id_toFinset {st : Store} {S : List Int}
    (hm : missing_ids st S = []) :
    ((fetched_authors st S).map (fun a => a.id)).toFinset = S.toFinset := by
  ext aid
  simp only [List.mem_toFinset]
  rw [mem_fetched_map_id]
  constructor
  · exact fun h => h.1
  · intro hS
    exact ⟨hS, missing_ids_eq_nil_iff.mp hm aid hS⟩

/-! ## Claim theorems: the replace endpoint -/

/-- Claim C2: a successful `ReplaceBookAuthors(B, S)` leaves B's author set
equal to exactly the set of ids in S — a full overwrite discarding every
prior author of B not in S, never a merge with the previous set. -/
theorem replace_book_authors_overwrites {check : Int → RemoteResp} {st : Store}
    {B : Int} {S : List Int} {st' : Store} {resp : ReplaceResp}
    (h : set_book_authors check st B S = (st', .ok resp)) :
    (book_author_ids st' B).toFinset = S.toFinset := by
  obtain ⟨b, hfind, hval, hm, hst, -⟩ := replace_ok_inversion h
  subst hst
  rw [book_author_ids_after_replace]
  exact fetched_map_id_toFinset hm

/-- Witness for C2: replacing book 10's authors {77} by [5] in `sampleStore`
succeeds and leaves the author set exactly {5}. -/
theorem replace_book_authors_overwrites_witness :
    (book_author_ids sampleStoreReplaced 10).toFinset = ([5] : List Int).toFinset :=
  replace_book_authors_overwrites
    (rfl : set_book_authors (remoteOf [5]) sampleStore 10 [5]
        = (sampleStoreReplaced, .ok ⟨10, [5]⟩))

/-- Claim C9: `ReplaceBookAuthors(B, S)` is idempotent — on the state a first
successful call produced, a second call with the same S succeeds, returns the
same response and leaves the store exactly as the first call left it. -/
theorem replace_book_authors_idempotent {check : Int → RemoteResp} {st : Store}
    {B : Int} {S : List Int} {st1 : Store} {r1 : ReplaceResp}
    (h : set_book_authors check st B S = (st1, .ok r1)) :
    set_book_authors check st1 B S = (st1, .ok r1) := by
  obtain ⟨b, hfind, hval, hm, hst, hresp⟩ := replace_ok_inversion h
  have hfind1 : st1.books.find? (fun x => x.id == B) = some b := by
    rw [hst]; exact hfind
  have hm1 : missing_ids st1 S = [] := by rw [hst]; exact hm
  have hfetch : fetched_authors st1 S = fetched_authors st S := by rw [hst]; rfl
  have hba : st1.bookAuthors = st.bookAuthors.filter (fun p => p.1 != B)
      ++ (fetched_authors st S).map (fun a => (B, a.id)) := by rw [hst]
  have hfilter : st1.bookAuthors.filter (fun p => p.1 != B)
      = st.bookAuthors.filter (fun p => p.1 != B) := by
    rw [hba, List.filter_append, List.filter_filter]
    have h1 : (st.bookAuthors.filter fun p => (p.1 != B) && (p.1 != B))
        = st.bookAuthors.filter (fun p => p.1 != B) :=
      List.filter_congr (fun p _ => Bool.and_self _)
    have h2 : ((fetched_authors st S).map (fun a => ((B : Int), a.id))).filter
        (fun p => p.1 != B) = [] := by
      apply List.filter_eq_nil_iff.mpr
      intro p hp
      obtain ⟨a, -, rfl⟩ := List.mem_map.mp hp
      simp
    rw [h1, h2, List.append_nil]
  rw [set_book_authors_eq_of hfind1 hval hm1, hfetch, hfilter, hresp, ← hba]

/-- Witness for C9: the second replace of book 10's authors by [5] returns the
same state and response as the first. -/
theorem replace_book_authors_idempotent_witness :
    set_book_authors (remoteOf [5]) sampleStoreReplaced 10 [5]
      = (sampleStoreReplaced, .ok ⟨10, [5]⟩) :=
  replace_book_authors_idempotent
    (rfl : set_book_authors (remoteOf [5]) sampleStore 10 [5]
        = (sampleStoreReplaced, .ok ⟨10, [5]⟩))

/-- Claim C5: when every id passes remote validation but the local re-fetch
covers fewer ids, the replace fails with the 404 whose detail lists the
missing ids, those ids are exactly the input ids absent from the local
`authors` table, and the store — in particular the book's author set — is
returned unchanged (no write precedes the check). -/
theorem replace_missing_locally {check : Int → RemoteResp} {st : Store}
    {B : Int} {S : List Int} {b : Book}
    (hbook : st.books.find? (fun x => x.id == B) = some b)
    (hval : validate_author_ids check S = .ok ())
    (hm : missing_ids st S ≠ []) :
    set_book_authors check st B S
      = (st, .error (.authorsNotFoundInDb (missing_ids st S))) ∧
    (missing_ids st S).toFinset
      = S.toFinset \ (st.authors.map (fun a => a.id)).toFinset := by
  refine ⟨by simp [set_book_authors, hbook, hval, hm], ?_⟩
  ext aid
  simp only [List.mem_toFinset, Finset.mem_sdiff, mem_missing_ids_iff, List.mem_map]
  constructor
  · rintro ⟨hS, hno⟩
    exact ⟨hS, fun ⟨a, ha, heq⟩ => hno a ha heq⟩
  · rintro ⟨hS, hnex⟩
    exact ⟨hS, fun a ha heq => hnex ⟨a, ha, heq⟩⟩

/-- Witness for C5: in `smallStore` (author 5 only), replacing with [5, 9]
after both ids validated remotely fails with 404 listing [9], and the store
is unchanged. -/
theorem replace_missing_locally_witness :
    (set_book_authors (remoteOf [5, 9]) smallStore 10 [5, 9]
      = (smallStore, .error (.authorsNotFoundInDb (missing_ids smallStore [5, 9]))) ∧
    (missing_ids smallStore [5, 9]).toFinset
      = ([5, 9] : List Int).toFinset
          \ ((smallStore.authors.map (fun a => a.id)).toFinset)) :=
  replace_missing_locally rfl rfl (by decide)

/-- Claim C10: a replace whose input list repeats ids (all existing) still
succeeds, and both the response's `author_ids` and the book's resulting
author rows carry each id at most once — the response reflects the fetched
rows (as a set, the ids of S), not the input's multiplicity. -/
theorem replace_collapses_duplicates {check : Int → RemoteResp} {st : Store}
    {B : Int} {S : List Int} {b : Book}
    (hbook : st.books.find? (fun x => x.id == B) = some b)
    (hval : validate_author_ids check S = .ok ())
    (hlocal : ∀ aid ∈ S, ∃ a ∈ st.authors, a.id = aid)
    (hnodup : (st.authors.map (fun a => a.id)).Nodup)
    (hdup : ¬ S.Nodup) :
    ∃ st' resp, set_book_authors check st B S = (st', .ok resp) ∧
      resp.author_ids.Nodup ∧
      (book_author_ids st' B).Nodup ∧
      resp.author_ids.toFinset = S.toFinset := by
  have hm : missing_ids st S = [] := missing_ids_eq_nil_iff.mpr hlocal
  have hsub : ((fetched_authors st S).map (fun a => a.id)).Sublist
      (st.authors.map (fun a => a.id)) :=
    (List.filter_sublist st.authors).map _
  refine ⟨_, _, set_book_authors_eq_of hbook hval hm,
    hnodup.sublist hsub, ?_, fetched_map_id_toFinset hm⟩
  rw [book_author_ids_after_replace]
  exact hnodup.sublist hsub

/-- Witness for C10: replacing book 10's authors with [5, 5] in `sampleStore`
succeeds with deduplicated author ids. -/
theorem replace_collapses_duplicates_witness :
    ∃ st' resp, set_book_authors (remoteOf [5]) sampleStore 10 [5, 5]
        = (st', .ok resp) ∧
      resp.author_ids.Nodup ∧
      (book_author_ids st' 10).Nodup ∧
      resp.author_ids.toFinset = ([5, 5] : List Int).toFinset :=
  replace_collapses_duplicates rfl rfl (by decide) (by decide) (by decide)

/-! ## Claim theorems: error statuses of the replace endpoint -/

/-- Claim C6, amended: every failing `PUT /books/{id}/authors` call produces
status 404, 422, 502 or 503.  (The claim as stated omits 502, which
`_assert_author_exists` raises when the Author Store answers with an HTTP
error other than 404 — see the counterexample.) -/
theorem replace_error_status {check : Int → RemoteResp} {st : Store}
    {book_id : Int} {body : Json} {st' : Store} {e : BooksErr}
    (h : put_book_authors check st book_id body = (st', .error e)) :
    e.status = 404 ∨ e.status = 422 ∨ e.status = 502 ∨ e.status = 503 := by
  cases e <;> simp [BooksErr.status]

/-- Witness for C6: the replace on an empty store fails with book-not-found,
whose status is one of the four. -/
theorem replace_error_status_witness :
    BooksErr.bookNotFound.status = 404 ∨ BooksErr.bookNotFound.status = 422 ∨
    BooksErr.bookNotFound.status = 502 ∨ BooksErr.bookNotFound.status = 503 :=
  replace_error_status
    (rfl : put_book_authors (remoteOf []) emptyStore 1
        (.obj [("author_ids", .arr [])]) = (emptyStore, .error .bookNotFound))

/-- Counterexample to C6 as stated: when the Author Store answers the
validation GET with HTTP 500, the replace fails with status 502, which is
none of 404, 422, 503. -/
theorem replace_error_status_cex :
    (put_book_authors (fun _ => .httpError 500) sampleStore 10
        (.obj [("author_ids", .arr [.num 5])])).2
      = .error (.authorsServiceError 500) ∧
    (BooksErr.authorsServiceError 500).status = 502 ∧
    ¬((502 : Int) = 404 ∨ (502 : Int) = 422 ∨ (502 : Int) = 503) :=
  ⟨rfl, rfl, by decide⟩

/-! ## Claim theorems: book creation -/

theorem validate_remoteOf_of_missing {remote : List Int} :
    ∀ {S : List Int}, (∃ aid ∈ S, aid ∉ remote) →
      ∃ aid, validate_author_ids (remoteOf remote) S
        = .error (.authorNotFound aid) := by
  intro S
  induction S with
  | nil => rintro ⟨aid, h, -⟩; cases h
  | cons x rest ih =>
    rintro ⟨aid, hmem, hnot⟩
    by_cases hc : x ∈ remote
    · have hstep : assert_author_exists x (remoteOf remote x) = .ok () := by
        simp [remoteOf, hc, assert_author_exists]
      cases hmem with
      | head => exact absurd hc hnot
      | tail _ hrest =>
        obtain ⟨a, ha⟩ := ih ⟨aid, hrest, hnot⟩
        exact ⟨a, by simp [validate_author_ids, hstep, ha]⟩
    · refine ⟨x, ?_⟩
      have hstep : assert_author_exists x (remoteOf remote x)
          = .error (.authorNotFound x) := by
        simp [remoteOf, hc, assert_author_exists]
      simp [validate_author_ids, hstep]

/-- Claim C3, amended: creating a book with an author id the Author Store
does not know fails with 404, but the book row itself — committed before the
validation — persists with zero authors attached: the final store is the
prior store plus exactly the new author-less book row. -/
theorem create_book_missing_author {remote : List Int} {st : Store}
    {title : String} {descr : Option String} {S : List Int}
    (hmiss : ∃ aid ∈ S, aid ∉ remote) :
    ∃ e, create_book (remoteOf remote) st title descr S
        = ({ st with books := st.books ++ [⟨nextBookId st, title, descr⟩] },
           .error e)
      ∧ e.status = 404 := by
  have hne : S.isEmpty = false := by
    obtain ⟨aid0, haid0, -⟩ := hmiss
    cases S
    · cases haid0
    · rfl
  obtain ⟨aid, hval⟩ := validate_remoteOf_of_missing hmiss
  exact ⟨.authorNotFound aid, by simp [create_book, hne, hval], rfl⟩

/-- Witness for C3 (amended): creating "T" with author 99 on the empty store
fails 404 yet persists the book row. -/
theorem create_book_missing_author_witness :
    ∃ e, create_book (remoteOf []) emptyStore "T" none [99]
        = ({ emptyStore with
              books := emptyStore.books ++ [⟨nextBookId emptyStore, "T", none⟩] },
           .error e)
      ∧ BooksErr.status e = 404 :=
  create_book_missing_author (by decide)

/-- Counterexample to C3 as stated: the same failing create does change the
store — the book row is persisted despite the 404. -/
theorem create_book_missing_author_cex :
    create_book (remoteOf []) emptyStore "T" none [99]
      = (⟨[], [⟨1, "T", none⟩], []⟩, .error (.authorNotFound 99)) ∧
    (⟨[], [⟨1, "T", none⟩], []⟩ : Store) ≠ emptyStore :=
  ⟨rfl, by decide⟩

/-! ## Claim theorems: the by-author listing -/

/-- Claim C8: `ListBooksByAuthor` answers 200 for every author id — known or
not — with `{author_id, books}` where `books` holds exactly the author's
(id, title, description) summaries in ascending book-id order, and is empty
(never a 404) when the author has no books or does not exist. -/
theorem list_books_by_author_total (st : Store) (A : Int) :
    ∃ bs : List BookSummary,
      get_books_by_author st A = .ok ⟨A, bs⟩ ∧
      bs.Sorted (fun x y => x.id ≤ y.id) ∧
      (∀ s, s ∈ bs ↔ ∃ b ∈ st.books, (b.id, A) ∈ st.bookAuthors
          ∧ s = ⟨b.id, b.title, b.description⟩) ∧
      ((∀ b ∈ st.books, (b.id, A) ∉ st.bookAuthors) → bs = []) := by
  haveI : IsTotal BookSummary (fun x y => x.id ≤ y.id) :=
    ⟨fun a b => Int.le_total a.id b.id⟩
  haveI : IsTrans BookSummary (fun x y => x.id ≤ y.id) :=
    ⟨fun _ _ _ hab hbc => le_trans hab hbc⟩
  refine ⟨_, rfl, List.sorted_insertionSort _ _, ?_, ?_⟩
  · intro s
    rw [(List.perm_insertionSort _ _).mem_iff]
    simp only [List.mem_map, List.mem_filter]
    constructor
    · rintro ⟨b, ⟨hb, hc⟩, rfl⟩
      exact ⟨b, hb, List.elem_iff.mp hc, rfl⟩
    · rintro ⟨b, hb, hmem, rfl⟩
      exact ⟨b, ⟨hb, List.elem_iff.mpr hmem⟩, rfl⟩
  · intro hnone
    have hrows : st.books.filter (fun b => st.bookAuthors.contains (b.id, A)) = [] := by
      apply List.filter_eq_nil_iff.mpr
      intro b hb hc
      exact hnone b hb (List.elem_iff.mp hc)
    rw [hrows]
    rfl

/-! ## Claim theorems: the assign-books orchestration -/

theorem extract_author_records (l : List Author) :
    extract_current_ids (l.map author_record)
      = (l.map (fun a => a.id)).map Json.num := by
  induction l with
  | nil => rfl
  | cons a rest ih => simp [extract_current_ids, author_record, jsonField, ih]

theorem merged_ids_map_num (L : List Int) (A : Int) :
    merged_ids (L.map Json.num) A = expected_put_ids L A := by
  by_cases hmem : A ∈ L
  · have h1 : (L.map Json.num).any (fun j => j.eqInt A) = true :=
      List.any_eq_true.mpr
        ⟨Json.num A, List.mem_map.mpr ⟨A, hmem, rfl⟩, by simp [Json.eqInt]⟩
    simp [merged_ids, expected_put_ids, h1, hmem]
  · have h1 : (L.map Json.num).any (fun j => j.eqInt A) = false := by
      rw [List.any_eq_false]
      intro j hj
      obtain ⟨n, hn, rfl⟩ := List.mem_map.mp hj
      simp only [Json.eqInt, beq_iff_eq]
      exact fun heq => hmem (heq ▸ hn)
    simp [merged_ids, expected_put_ids, h1, hmem]

theorem process_put_shape {peer : BooksPeer} {aid : Int} :
    ∀ {bids : List Int} {b : Int} {body : List Json},
      PeerCall.put b body ∈ (process_books peer aid bids).1 →
      ∃ elems, peer.getAuthors b = .success (.arr elems) ∧
        body = merged_ids (extract_current_ids elems) aid := by
  intro bids
  induction bids with
  | nil =>
    intro b body h
    cases h
  | cons x rest ih =>
    intro b body h
    cases hg : peer.getAuthors x with
    | httpError code =>
      simp only [process_books, hg, List.mem_cons, List.not_mem_nil, or_false] at h
      cases h
    | failure =>
      simp only [process_books, hg, List.mem_cons, List.not_mem_nil, or_false] at h
      cases h
    | success body0 =>
      cases body0 with
      | arr items =>
        cases hp : peer.putAuthors x (merged_ids (extract_current_ids items) aid) with
        | httpError code =>
          simp only [process_books, hg, hp, List.mem_cons, List.not_mem_nil,
            or_false] at h
          rcases h with h | h
          · cases h
          · injection h with h1 h2
            subst h1; subst h2
            exact ⟨items, hg, rfl⟩
        | failure =>
          simp only [process_books, hg, hp, List.mem_cons, List.not_mem_nil,
            or_false] at h
          rcases h with h | h
          · cases h
          · injection h with h1 h2
            subst h1; subst h2
            exact ⟨items, hg, rfl⟩
        | success resp =>
          simp only [process_books, hg, hp, List.mem_cons] at h
          rcases h with h | h | h
          · cases h
          · injection h with h1 h2
            subst h1; subst h2
            exact ⟨items, hg, rfl⟩
          · exact ih h
      | null =>
        simp only [process_books, hg, List.mem_cons, List.not_mem_nil, or_false] at h
        cases h
      | num n =>
        simp only [process_books, hg, List.mem_cons, List.not_mem_nil, or_false] at h
        cases h
      | str s =>
        simp only [process_books, hg, List.mem_cons, List.not_mem_nil, or_false] at h
        cases h
      | bool bl =>
        simp only [process_books, hg, List.mem_cons, List.not_mem_nil, or_false] at h
        cases h
      | obj fields =>
        simp only [process_books, hg, List.mem_cons, List.not_mem_nil, or_false] at h
        cases h

/-- Claim C1: when an existing author A is assigned books, every author list
the loop writes to the Book Store for a book B whose GET answered with B's
current author records is B's current id list with A appended at the end if
absent, and exactly B's current list if A is already present — existing ids
neither deduplicated nor reordered. -/
theorem assign_preserves_and_appends {peer : BooksPeer} {st : Store} {A B : Int}
    {book_ids : List Int} {body : List Json}
    (hA : (st.authors.find? (fun a => a.id == A)).isSome = true)
    (hGet : peer.getAuthors B
      = .success (.arr ((book_author_rows st B).map author_record)))
    (hput : PeerCall.put B body ∈ (set_author_books peer st A book_ids).1) :
    body = expected_put_ids ((book_author_rows st B).map (fun a => a.id)) A := by
  obtain ⟨a, ha⟩ := Option.isSome_iff_exists.mp hA
  by_cases hbe : book_ids.isEmpty
  · simp [set_author_books, ha, hbe] at hput
  · have htr : (set_author_books peer st A book_ids).1
        = (process_books peer A book_ids).1 := by
      simp [set_author_books, ha, hbe]
    rw [htr] at hput
    obtain ⟨elems, hgb, hbody⟩ := process_put_shape hput
    rw [hGet] at hgb
    injection hgb with hb
    injection hb with helems
    rw [hbody, ← helems, extract_author_records, merged_ids_map_num]

/-- Witness for C1: in `sampleStore`, book 10's current authors are {77};
assigning book 10 to author 5 writes [77, 5] — 77 first, 5 appended. -/
theorem assign_preserves_and_appends_witness :
    ([Json.num 77, Json.num 5] : List Json)
      = expected_put_ids ((book_author_rows sampleStore 10).map (fun a => a.id)) 5 :=
  @assign_preserves_and_appends samplePeer sampleStore 5 10 [10]
    [Json.num 77, Json.num 5] rfl rfl (List.Mem.tail _ (List.Mem.head _))

/-- Claim C4: assigning an empty book list to an existing author makes no
call to the Book Store (the call trace is empty, whatever the peer) and
returns exactly `{author_id, updated_books: [], message: "No book_ids
provided"}`. -/
theorem assign_empty_book_ids {peer : BooksPeer} {st : Store} {A : Int}
    (hA : (st.authors.find? (fun a => a.id == A)).isSome = true) :
    set_author_books peer st A []
      = ([], .ok (.obj [("author_id", .num A), ("updated_books", .arr []),
                        ("message", .str "No book_ids provided")])) := by
  obtain ⟨a, ha⟩ := Option.isSome_iff_exists.mp hA
  simp [set_author_books, ha]

/-- Witness for C4: author 5 of `sampleStore` with an empty book list. -/
theorem assign_empty_book_ids_witness :
    set_author_books samplePeer sampleStore 5 []
      = ([], .ok (.obj [("author_id", .num 5), ("updated_books", .arr []),
                        ("message", .str "No book_ids provided")])) :=
  assign_empty_book_ids rfl

theorem process_books_append_of_ok {peer : BooksPeer} {aid : Int} :
    ∀ {xs : List Int} {us : List Json} (ys : List Int),
      (process_books peer aid xs).2 = .ok us →
      (process_books peer aid (xs ++ ys)).2
        = match (process_books peer aid ys).2 with
          | .error e => .error e
          | .ok vs => .ok (us ++ vs) := by
  intro xs
  induction xs with
  | nil =>
    intro us ys h
    injection h with h1
    subst h1
    simp only [List.nil_append]
    cases hys : (process_books peer aid ys).2 <;> simp [hys]
  | cons x rest ih =>
    intro us ys h
    cases hg : peer.getAuthors x with
    | httpError code => rw [process_books, hg] at h; cases h
    | failure => rw [process_books, hg] at h; cases h
    | success body0 =>
      cases body0 with
      | arr items =>
        cases hp : peer.putAuthors x (merged_ids (extract_current_ids items) aid) with
        | httpError code =>
          simp only [process_books, hg, hp] at h
          cases h
        | failure =>
          simp only [process_books, hg, hp] at h
          cases h
        | success resp =>
          simp only [process_books, hg, hp, List.cons_append] at h ⊢
          cases ht : (process_books peer aid rest).2 with
          | error e => rw [ht] at h; cases h
          | ok vs =>
            rw [ht] at h
            injection h with h1
            subst h1
            simp only [List.append_eq]
            rw [ih ys ht]
            cases hys : (process_books peer aid ys).2 <;> simp [hys]
      | null => rw [process_books, hg] at h; cases h
      | num n => rw [process_books, hg] at h; cases h
      | str s => rw [process_books, hg] at h; cases h
      | bool bl => rw [process_books, hg] at h; cases h
      | obj fields => rw [process_books, hg] at h; cases h

/-- Claim C7, amended: the assign loop fails with 502 for a book whose
current-authors response is a 200 whose JSON body is not a list (once the
loop reaches that book, i.e. every earlier book processed successfully).  A
list whose elements are not author records does NOT trigger the 502 — the
non-record elements are silently skipped (see the counterexample). -/
theorem assign_fails_502_on_non_list {peer : BooksPeer} {st : Store} {A B : Int}
    {pre post : List Int} {us : List Json} {body : Json}
    (hA : (st.authors.find? (fun a => a.id == A)).isSome = true)
    (hpre : (process_books peer A pre).2 = .ok us)
    (hB : peer.getAuthors B = .success body)
    (hbody : body.isArr = false) :
    (set_author_books peer st A (pre ++ B :: post)).2
      = .error .unexpectedResponseShape := by
  obtain ⟨a, ha⟩ := Option.isSome_iff_exists.mp hA
  have hstep : (process_books peer A (B :: post)).2
      = .error .unexpectedResponseShape := by
    cases body with
    | arr items => simp [Json.isArr] at hbody
    | null => rw [process_books, hB]
    | num n => rw [process_books, hB]
    | str s => rw [process_books, hB]
    | bool bl => rw [process_books, hB]
    | obj fields => rw [process_books, hB]
  have hproc := process_books_append_of_ok (B :: post) hpre
  rw [hstep] at hproc
  have hne : (pre ++ B :: post).isEmpty = false := by
    cases pre <;> rfl
  simp [set_author_books, ha, hne, hproc]

/-- Witness for C7 (amended): against `oddPeer`, whose GET answers with the
JSON string "oops", assigning book 10 to author 5 fails with 502. -/
theorem assign_fails_502_on_non_list_witness :
    (set_author_books oddPeer sampleStore 5 [10]).2
      = .error .unexpectedResponseShape :=
  @assign_fails_502_on_non_list oddPeer sampleStore 5 10 [] [] []
    (.str "oops") rfl rfl rfl rfl

/-- Counterexample to C7 as stated: `nonRecordPeer` answers the GET for every
book with `[42]` — a sequence, but not a sequence of author records — yet the
assign succeeds (no 502): the non-record element is skipped and the loop
writes `[5]` and returns 200. -/
theorem assign_fails_502_cex :
    isAuthorRecordSeq (Json.arr [Json.num 42]) = false ∧
    (set_author_books nonRecordPeer sampleStore 5 [10]).2
      = .ok (.obj [("author_id", .num 5), ("book_ids", .arr [.num 10]),
                   ("updated_books", .arr [.null])]) :=
  ⟨rfl, rfl⟩

end BookAuthorMS
